import Mathlib

/-
Verification of `src/str_analysis/check_trios_for_mendelian_violations.py`.

The Python source is shallowly embedded below.  Python strings are Lean
`String`s, Python `int`s are Lean `Int`s, Python lists are Lean `List`s.
Fallible Python code (exceptions such as `ValueError`, `AssertionError`,
failed `int()` parses, `min([])`, out-of-range indexing) is embedded as
`Option`/`Except Err` values, with one `Err` constructor per distinct
failure site.  Python's `str.split`, `int()` and `str()` are modelled by
hand-rolled structural functions (`splitChar`, `pyInt`, `pyStr`) so that
every definition evaluates inside the kernel.
-/

set_option maxRecDepth 10000

namespace CheckTrios

/-! Models of the Python string primitives used by the script. -/

/-- Model of Python `s.split(sep)` for a one-character separator `c`
(the script only ever splits on "/", "-" and ":").  Like Python's
`split` with an explicit separator it never returns an empty list and
does not collapse adjacent separators. -/
def splitCharAux (c : Char) : List Char → List (List Char)
  | [] => [[]]
  | x :: xs =>
    let r := splitCharAux c xs
    if x = c then [] :: r
    else
      match r with
      | [] => [[x]]
      | g :: gs => (x :: g) :: gs

def splitChar (c : Char) (s : String) : List String :=
  (splitCharAux c s.data).map (fun l => String.mk l)

/-- Accumulator loop for `pyInt`: value of a digit string, `none` if a
non-digit character occurs. -/
def digitsVal : List Char → Nat → Option Nat
  | [], acc => some acc
  | c :: cs, acc => if c.isDigit then digitsVal cs (acc * 10 + (c.toNat - 48)) else none

/-- Model of Python `int(s)` on the token shapes occurring in this
script: an optional sign followed by at least one decimal digit (leading
zeros allowed, so `pyInt "017" = some 17`); `none` models the
`ValueError` raised on anything else. -/
def pyInt (s : String) : Option Int :=
  match s.data with
  | [] => none
  | '-' :: cs =>
    match cs with
    | [] => none
    | _ :: _ => (digitsVal cs 0).map (fun n => -(n : Int))
  | '+' :: cs =>
    match cs with
    | [] => none
    | _ :: _ => (digitsVal cs 0).map (fun n => (n : Int))
  | cs => (digitsVal cs 0).map (fun n => (n : Int))

/-- Model of the list comprehension `[int(pa) for pa in parent_alleles]`:
all-or-nothing integer parsing of a list of allele strings. -/
def mapPyInt : List String → Option (List Int)
  | [] => some []
  | a :: rest =>
    match pyInt a, mapPyInt rest with
    | some v, some vs => some (v :: vs)
    | _, _ => none

def natToStrAux : Nat → Nat → List Char
  | 0, _ => []
  | fuel + 1, n =>
    if n < 10 then [Nat.digitChar n]
    else natToStrAux fuel (n / 10) ++ [Nat.digitChar (n % 10)]

/-- Model of Python `str(i)` for an integer `i` (decimal, no leading
zeros, a leading minus sign for negative values). -/
def pyStr (i : Int) : String :=
  match i with
  | .ofNat n => String.mk (natToStrAux (n + 1) n)
  | .negSucc m => String.mk ('-' :: natToStrAux (m + 2) (m + 1))

/-! The interval primitive (source lines 171-206).  The script builds
`intervaltree.Interval` values from parsed confidence-interval bounds;
an interval is a pair of integer endpoints.  `end` is a Lean keyword, so
the second field is named `iend`. -/

structure Interval where
  begin : Int
  iend : Int
  deriving DecidableEq

/-- Source `intervals_overlap(i1, i2)` (lines 171-176): the intervals are
treated as closed, so touching endpoints still overlap. -/
def intervals_overlap (i1 i2 : Interval) : Bool :=
  !(i1.iend < i2.begin || i2.iend < i1.begin)

/-- Modelled from the spec: the script calls `Interval.distance_to` from
the external `intervaltree` package, which is not part of this
repository.  Per the spec ("minimum absolute inter-interval distance
(zero if overlapping)") the distance is `0` for overlapping (closed)
intervals and otherwise the size of the gap between them. -/
def Interval.distance_to (i1 i2 : Interval) : Int :=
  if intervals_overlap i1 i2 then 0
  else if i1.iend < i2.begin then i2.begin - i1.iend
  else i1.begin - i2.iend

/-- Source `compute_min_distance_mendelian` (lines 179-190): smallest
absolute difference between the proband allele and any parent allele,
with both sides parsed by `int()`.  `none` models the `ValueError`
raised either by a failed parse or by `min([])` on an empty parent
list. -/
def compute_min_distance_mendelian (proband_allele : String) (parent_alleles : List String) :
    Option Int :=
  match pyInt proband_allele, mapPyInt parent_alleles with
  | some p, some ps => (ps.map (fun pa => |p - pa|)).min?
  | _, _ => none

/-- Source `compute_min_distance_mendelian_ci` (lines 193-206): smallest
absolute interval distance between the proband confidence interval and
any parent confidence interval; `none` models `min([])` on an empty
list. -/
def compute_min_distance_mendelian_ci (proband_CI : Interval) (parent_CIs : List Interval) :
    Option Int :=
  (parent_CIs.map (fun parent_CI => |proband_CI.distance_to parent_CI|)).min?

/-! The violation scoring engine (`compute_mendelian_violations`,
source lines 209-370).  Each distinct Python failure site gets its own
error constructor. -/

inductive Err where
  /-- `row.Genotype` is `None`, so `.split("/")` raises `AttributeError`. -/
  | genotypeNone
  /-- one of the three `assert len(...) in [1, 2]` checks fails. -/
  | alleleCountAssert
  /-- `Interval(*[int(i) for i in ci.split("-")])` fails to parse. -/
  | ciParseError
  /-- `proband_CIs[0]` / `proband_CIs[1]` raises `IndexError`. -/
  | ciIndexError
  /-- `int()` raises `ValueError` inside `compute_min_distance_mendelian`. -/
  | intParseError
  /-- `min([])` raises `ValueError`. -/
  | emptyListMin
  /-- the `assert distance_mendelian == 0` guard (line 265) fails. -/
  | distanceAssert
  /-- the dead `raise ValueError(f"Unexpected proband_alleles ...")` branch. -/
  | unexpectedAlleles
  /-- `parse_interval(proband_row.ReferenceRegion)` fails. -/
  | refRegionParseError
  /-- `len(proband_row.RepeatUnit)` is zero, so `%` raises `ZeroDivisionError`. -/
  | zeroLenRepeatUnit
  /-- `check_for_duplicate_keys` raises `ValueError` (lines 63-81). -/
  | duplicateKeys
  deriving DecidableEq

/-- Parse one "low-high" confidence-interval token into an `Interval`
(source lines 228-230); `none` models the exceptions raised by
`int()` or by calling `Interval(*args)` with an argument count other
than two. -/
def parseCI (s : String) : Option Interval :=
  match splitChar '-' s with
  | [a, b] =>
    match pyInt a, pyInt b with
    | some x, some y => some ⟨x, y⟩
    | _, _ => none
  | _ => none

/-- All-or-nothing parse of a list of "low-high" tokens. -/
def mapParseCI : List String → Option (List Interval)
  | [] => some []
  | c :: cs =>
    match parseCI c, mapParseCI cs with
    | some i, some is_ => some (i :: is_)
    | _, _ => none

/-- Parse a "/"-joined genotype confidence interval string into its list
of intervals (source lines 228-230). -/
def parseCIs (s : String) : Option (List Interval) :=
  mapParseCI (splitChar '/' s)

/-- The single-allele (hemizygous) branch of the scoring engine (source
lines 232-243): the proband allele may match either parent, and the
distance is the minimum over both parents. -/
def branch_results_one (p0 : String) (father_alleles mother_alleles : List String)
    (proband_CIs father_CIs mother_CIs : List Interval) :
    Except Err ((Bool × Int) × (Bool × Int)) :=
  match compute_min_distance_mendelian p0 father_alleles,
        compute_min_distance_mendelian p0 mother_alleles with
  | some df, some dm =>
    match proband_CIs with
    | pCI0 :: _ =>
      match compute_min_distance_mendelian_ci pCI0 father_CIs,
            compute_min_distance_mendelian_ci pCI0 mother_CIs with
      | some dcf, some dcm =>
        .ok ((father_alleles.contains p0 || mother_alleles.contains p0, min df dm),
             (father_CIs.any (fun i => intervals_overlap pCI0 i) ||
              mother_CIs.any (fun i => intervals_overlap pCI0 i), min dcf dcm))
      | _, _ => .error .emptyListMin
    | [] => .error .ciIndexError
  | _, _ => .error .intParseError

/-- The two-allele branch of the scoring engine (source lines 245-260):
both allele-to-parent assignment permutations are checked, and the
distance is the minimum over the two permutations of the summed
per-allele minimum distances. -/
def branch_results_two (p0 p1 : String) (father_alleles mother_alleles : List String)
    (proband_CIs father_CIs mother_CIs : List Interval) :
    Except Err ((Bool × Int) × (Bool × Int)) :=
  match compute_min_distance_mendelian p0 father_alleles,
        compute_min_distance_mendelian p1 mother_alleles,
        compute_min_distance_mendelian p1 father_alleles,
        compute_min_distance_mendelian p0 mother_alleles with
  | some d0f, some d1m, some d1f, some d0m =>
    match proband_CIs with
    | pCI0 :: pCI1 :: _ =>
      match compute_min_distance_mendelian_ci pCI0 father_CIs,
            compute_min_distance_mendelian_ci pCI1 mother_CIs,
            compute_min_distance_mendelian_ci pCI1 father_CIs,
            compute_min_distance_mendelian_ci pCI0 mother_CIs with
      | some c0f, some c1m, some c1f, some c0m =>
        .ok (((father_alleles.contains p0 && mother_alleles.contains p1) ||
              (father_alleles.contains p1 && mother_alleles.contains p0),
              min (d0f + d1m) (d1f + d0m)),
             ((father_CIs.any (fun i => intervals_overlap pCI0 i) &&
               mother_CIs.any (fun i => intervals_overlap pCI1 i)) ||
              (father_CIs.any (fun i => intervals_overlap pCI1 i) &&
               mother_CIs.any (fun i => intervals_overlap pCI0 i)),
              min (c0f + c1m) (c1f + c0m)))
      | _, _, _, _ => .error .emptyListMin
    | _ => .error .ciIndexError
  | _, _, _, _ => .error .intParseError

/-- Dispatch on the number of proband alleles, exactly as the
`if len(proband_alleles) == 1 / elif ... == 2 / else raise` cascade of
the source (lines 232-262) does.  The result is
`((ok_mendelian, distance_mendelian), (ok_mendelian_ci,
distance_mendelian_ci))`. -/
def branch_results (proband_alleles father_alleles mother_alleles : List String)
    (proband_CIs father_CIs mother_CIs : List Interval) :
    Except Err ((Bool × Int) × (Bool × Int)) :=
  match proband_alleles with
  | [p0] => branch_results_one p0 father_alleles mother_alleles proband_CIs father_CIs mother_CIs
  | [p0, p1] =>
    branch_results_two p0 p1 father_alleles mother_alleles proband_CIs father_CIs mother_CIs
  | _ => .error .unexpectedAlleles

/-- Modelled from the spec: `parse_interval` lives in
`str_analysis.utils.misc_utils`, which is not under `src/`.  Per the
spec, `ReferenceRegion` is a "chrom:start-end style" string with a
0-based half-open start; the function returns the chromosome name and
the two integer coordinates. -/
def parse_interval (s : String) : Option (String × Int × Int) :=
  match splitChar ':' s with
  | [chrom, rest] =>
    match splitChar '-' rest with
    | [a, b] =>
      match pyInt a, pyInt b with
      | some x, some y => some (chrom, x, y)
      | _, _ => none
    | _ => none
  | _ => none

/-- One row of the combined STR calls table after the left join with the
pedigree table (source lines 84-129 and 384).  `Genotype` is optional
because the source checks `row.Genotype is not None`; `father_id` and
`mother_id` are optional because the pedigree join leaves them `NaN`
for samples without pedigree entries.  Columns the embedded claims never
touch (`Sex`, `Coverage`, `Num Repeats: Allele 2` and the read-support
columns) are omitted. -/
structure Row where
  SampleId : String
  Filename : String
  LocusId : String
  VariantId : String
  Genotype : Option String
  GenotypeConfidenceInterval : String
  ReferenceRegion : String
  RepeatUnit : String
  father_id : Option String
  mother_id : Option String
  deriving DecidableEq

abbrev Trio := Row × Row × Row

/-- One row of the result table built by `compute_mendelian_violations`
(source lines 290-332).  Purely informational metadata columns (sample
ids, sex, coverage, CI size, read-support counts and the two long
diagnostic strings) are omitted; every column a claim mentions is
kept. -/
structure ResultRow where
  LocusId : String
  ReferenceRegion : String
  VariantId : String
  RepeatUnit : String
  RepeatUnitLength : Nat
  IsMendelianViolation : Bool
  IsMendelianViolationCI : Bool
  MendelianViolationDistance : Int
  MendelianViolationDistanceCI : Int
  MendelianViolationSummary : String
  ProbandGenotype : String
  FatherGenotype : String
  MotherGenotype : String
  AllGenotypesAreTheSame : Bool
  AllGenotypesAreHomozygousReference : Bool
  deriving DecidableEq

/-- Model of Python `set(a) == set(b)` on lists of allele strings
(source line 287). -/
def pySetEq (a b : List String) : Bool :=
  a.all (fun x => b.contains x) && b.all (fun x => a.contains x)

/-- The body of the main loop of `compute_mendelian_violations` for a
single trio (source lines 218-352): split the genotypes, assert the
allele counts, parse the confidence intervals, compute both consistency
flags and distances, run the `assert distance_mendelian == 0` guard,
compute the reference repeat count (the returned `Bool` is the warning
printed when the reference region length is not a multiple of the
repeat unit length), and build the result row. -/
def processTrio (t : Trio) : Except Err (ResultRow × Bool) :=
  match t.1.Genotype, t.2.1.Genotype, t.2.2.Genotype with
  | some proband_gt, some father_gt, some mother_gt =>
    if (splitChar '/' proband_gt).length = 1 ∨ (splitChar '/' proband_gt).length = 2 then
      if (splitChar '/' father_gt).length = 1 ∨ (splitChar '/' father_gt).length = 2 then
        if (splitChar '/' mother_gt).length = 1 ∨ (splitChar '/' mother_gt).length = 2 then
          match parseCIs t.1.GenotypeConfidenceInterval,
                parseCIs t.2.1.GenotypeConfidenceInterval,
                parseCIs t.2.2.GenotypeConfidenceInterval with
          | some proband_CIs, some father_CIs, some mother_CIs =>
            match branch_results (splitChar '/' proband_gt) (splitChar '/' father_gt)
                (splitChar '/' mother_gt) proband_CIs father_CIs mother_CIs with
            | .error e => .error e
            | .ok ((ok_mendelian, distance_mendelian), (ok_mendelian_ci, distance_mendelian_ci)) =>
              if ok_mendelian = true ∧ ¬distance_mendelian = 0 then .error .distanceAssert
              else
                match parse_interval t.1.ReferenceRegion with
                | none => .error .refRegionParseError
                | some (_, reference_region_start_0based, reference_region_end_1based) =>
                  if t.1.RepeatUnit.length = 0 then .error .zeroLenRepeatUnit
                  else
                    .ok ({ LocusId := t.1.LocusId ++ " (" ++ t.1.VariantId ++ ")",
                           ReferenceRegion := t.1.ReferenceRegion,
                           VariantId := t.1.VariantId,
                           RepeatUnit := t.1.RepeatUnit,
                           RepeatUnitLength := t.1.RepeatUnit.length,
                           IsMendelianViolation := !ok_mendelian,
                           IsMendelianViolationCI := !ok_mendelian_ci,
                           MendelianViolationDistance := distance_mendelian,
                           MendelianViolationDistanceCI := distance_mendelian_ci,
                           MendelianViolationSummary :=
                             if !ok_mendelian_ci then "MV-CI!"
                             else if !ok_mendelian then "MV" else "ok",
                           ProbandGenotype := proband_gt,
                           FatherGenotype := father_gt,
                           MotherGenotype := mother_gt,
                           AllGenotypesAreTheSame :=
                             pySetEq (splitChar '/' proband_gt) (splitChar '/' mother_gt) &&
                             pySetEq (splitChar '/' proband_gt) (splitChar '/' father_gt),
                           AllGenotypesAreHomozygousReference :=
                             (splitChar '/' proband_gt).all (fun a =>
                               a == pyStr ((reference_region_end_1based -
                                 reference_region_start_0based).tdiv (t.1.RepeatUnit.length : Int))) &&
                             (splitChar '/' mother_gt).all (fun a =>
                               a == pyStr ((reference_region_end_1based -
                                 reference_region_start_0based).tdiv (t.1.RepeatUnit.length : Int))) &&
                             (splitChar '/' father_gt).all (fun a =>
                               a == pyStr ((reference_region_end_1based -
                                 reference_region_start_0based).tdiv (t.1.RepeatUnit.length : Int))) },
                         decide (¬(reference_region_end_1based - reference_region_start_0based) %
                           (t.1.RepeatUnit.length : Int) = 0))
          | _, _, _ => .error .ciParseError
        else .error .alleleCountAssert
      else .error .alleleCountAssert
    else .error .alleleCountAssert
  | _, _, _ => .error .genotypeNone

/-! Trio grouping (`group_rows_by_trio`, source lines 132-168). -/

abbrev TrioKey := String × String × String

/-- The `all_rows` cache as an insertion-ordered list of key/row pairs:
each row with a non-`None` genotype is registered under both its
(SampleId, LocusId, VariantId) and its (Filename, LocusId, VariantId)
alias (source lines 137-141). -/
def all_rows_pairs (rows : List Row) : List (TrioKey × Row) :=
  rows.foldl (fun acc row =>
    match row.Genotype with
    | none => acc
    | some _ => acc ++ [((row.SampleId, row.LocusId, row.VariantId), row),
                        ((row.Filename, row.LocusId, row.VariantId), row)]) []

/-- Python `dict` lookup over the insertion-ordered pair list: the most
recent binding of a key wins, as with `all_rows[k] = row` overwrites. -/
def dict_get (pairs : List (TrioKey × Row)) (k : TrioKey) : Option Row :=
  ((pairs.filter (fun p => p.1 == k)).getLast?).map (fun p => p.2)

/-- The main loop of `group_rows_by_trio` over the candidate rows
(source lines 151-164): look up both parents; a hit on both emits a
trio, a miss on either routes the row to `other_rows`. -/
def group_go (pairs : List (TrioKey × Row)) : List Row → List (Row × Row × Row) × List Row
  | [] => ([], [])
  | row :: rest =>
    match row.father_id, row.mother_id with
    | some fid, some mid =>
      match dict_get pairs (fid, row.LocusId, row.VariantId),
            dict_get pairs (mid, row.LocusId, row.VariantId) with
      | some father_row, some mother_row =>
        ((row, father_row, mother_row) :: (group_go pairs rest).1, (group_go pairs rest).2)
      | _, _ => ((group_go pairs rest).1, row :: (group_go pairs rest).2)
    | _, _ => group_go pairs rest

/-- Source `group_rows_by_trio` (lines 132-168): build the dual-keyed
cache, keep only rows whose `father_id` and `mother_id` are both
non-missing (line 148), and partition those candidates into full trios
and `other_rows`. -/
def group_rows_by_trio (rows : List Row) : List (Row × Row × Row) × List Row :=
  group_go (all_rows_pairs rows)
    (rows.filter (fun row => row.father_id.isSome && row.mother_id.isSome))

/-! Result aggregation (source lines 212-275 and 360-370).  The
per-locus violation counters (`collections.defaultdict(int)`) are
modelled as association lists. -/

def incrCounter : List (String × Nat) → String → List (String × Nat)
  | [], key => [(key, 1)]
  | (k, n) :: rest, key =>
    if k = key then (k, n + 1) :: rest else (k, n) :: incrCounter rest key

def sumCounters (cs : List (String × Nat)) : Nat := (cs.map (fun c => c.2)).sum

/-- The counter key `f"{locus_id} ({proband_row.RepeatUnit})"` (source
lines 270 and 275). -/
def counterKey (row : Row) : String := row.LocusId ++ " (" ++ row.RepeatUnit ++ ")"

/-- The accumulator loop of `compute_mendelian_violations`: process the
trios in order, abort on the first exception, append every result row,
and increment the exact / CI per-locus counters for violating rows
(source lines 218, 268-275, 352).  The printed diagnostic string lists
are not modelled. -/
def cmv_go : List Trio → List ResultRow → List (String × Nat) → List (String × Nat) →
    Except Err (List ResultRow × List (String × Nat) × List (String × Nat))
  | [], rows, counters, counters_ci => .ok (rows, counters, counters_ci)
  | t :: rest, rows, counters, counters_ci =>
    match processTrio t with
    | .error e => .error e
    | .ok (r, _) =>
      cmv_go rest (rows ++ [r])
        (if r.IsMendelianViolation then incrCounter counters (counterKey t.1) else counters)
        (if r.IsMendelianViolationCI then incrCounter counters_ci (counterKey t.1) else counters_ci)

/-- Source `compute_mendelian_violations` (lines 209-370), returning the
result table together with the exact and CI per-locus violation
counters. -/
def compute_mendelian_violations (trio_rows : List Trio) :
    Except Err (List ResultRow × List (String × Nat) × List (String × Nat)) :=
  cmv_go trio_rows [] [] []

/-! Input-table parsing (source lines 63-129). -/

/-- The index key used by `parse_combined_str_calls_tsv_path`
(source line 100). -/
def callKey (row : Row) : String × String × String × String :=
  (row.Filename, row.SampleId, row.LocusId, row.VariantId)

/-- Model of `sum(df.index.duplicated())`: the number of positions
whose key already occurred earlier in the list. -/
def dupCountAux {α : Type} [DecidableEq α] (seen : List α) : List α → Nat
  | [] => 0
  | x :: xs => (if x ∈ seen then 1 else 0) + dupCountAux (x :: seen) xs

def dupCount {α : Type} [DecidableEq α] (l : List α) : Nat := dupCountAux [] l

/-- Source `check_for_duplicate_keys` (lines 63-81): raise `ValueError`
iff the key list contains a duplicate. -/
def check_for_duplicate_keys {α : Type} [DecidableEq α] (keys : List α) : Except Err Unit :=
  if dupCount keys > 0 then .error .duplicateKeys else .ok ()

/-- Source `parse_combined_str_calls_tsv_path` (lines 84-102): check for
duplicate (Filename, SampleId, LocusId, VariantId) keys and hand the
table back unchanged (`set_index` followed by `reset_index`). -/
def parse_combined_str_calls_tsv_path (rows : List Row) : Except Err (List Row) :=
  match check_for_duplicate_keys (rows.map callKey) with
  | .error e => .error e
  | .ok _ => .ok rows

/-- One row of the six-column pedigree (.fam) file, all read as text
(source lines 112-123). -/
structure FamRow where
  family_id : String
  individual_id : String
  father_id : String
  mother_id : String
  sex : String
  phenotype : String
  deriving DecidableEq

/-- The `[["individual_id", "father_id", "mother_id"]]` column selection
(source line 125). -/
def famProj (r : FamRow) : String × String × String :=
  (r.individual_id, r.father_id, r.mother_id)

/-- Model of pandas `DataFrame.drop_duplicates`: keep the first
occurrence of each value. -/
def drop_duplicates {α : Type} [DecidableEq α] (l : List α) : List α :=
  l.foldl (fun acc a => if a ∈ acc then acc else acc ++ [a]) []

/-- Source `parse_fam_file` (lines 105-129): select the three id
columns, deduplicate rows by exact equality, and raise `ValueError`
iff duplicate `individual_id` values remain. -/
def parse_fam_file (rows : List FamRow) : Except Err (List (String × String × String)) :=
  match check_for_duplicate_keys
      ((drop_duplicates (rows.map famProj)).map (fun r => r.1)) with
  | .error e => .error e
  | .ok _ => .ok (drop_duplicates (rows.map famProj))

/-! Concrete records used by witnesses and counterexamples. -/

/-- Heterozygous example trio from the spec: proband 17/20, father
17/17, mother 20/22, with an exact-multiple reference region. -/
def trioHetExample : Trio :=
  ({ SampleId := "P1", Filename := "p1", LocusId := "LOC1", VariantId := "LOC1",
     Genotype := some ("17/20"), GenotypeConfidenceInterval := "16-18/19-21",
     ReferenceRegion := "chr1:100-151", RepeatUnit := "AGC",
     father_id := some ("F1"), mother_id := some ("M1") },
   { SampleId := "F1", Filename := "f1", LocusId := "LOC1", VariantId := "LOC1",
     Genotype := some ("17/17"), GenotypeConfidenceInterval := "16-18/16-18",
     ReferenceRegion := "chr1:100-151", RepeatUnit := "AGC",
     father_id := none, mother_id := none },
   { SampleId := "M1", Filename := "m1", LocusId := "LOC1", VariantId := "LOC1",
     Genotype := some ("20/22"), GenotypeConfidenceInterval := "19-21/21-23",
     ReferenceRegion := "chr1:100-151", RepeatUnit := "AGC",
     father_id := none, mother_id := none })

/-- Hemizygous example trio from the spec: proband 15, father 10/10,
mother 15/18. -/
def trioHemiExample : Trio :=
  ({ SampleId := "P2", Filename := "p2", LocusId := "LOC2", VariantId := "LOC2",
     Genotype := some ("15"), GenotypeConfidenceInterval := "14-16",
     ReferenceRegion := "chrX:200-230", RepeatUnit := "AGC",
     father_id := some ("F2"), mother_id := some ("M2") },
   { SampleId := "F2", Filename := "f2", LocusId := "LOC2", VariantId := "LOC2",
     Genotype := some ("10/10"), GenotypeConfidenceInterval := "9-11/9-11",
     ReferenceRegion := "chrX:200-230", RepeatUnit := "AGC",
     father_id := none, mother_id := none },
   { SampleId := "M2", Filename := "m2", LocusId := "LOC2", VariantId := "LOC2",
     Genotype := some ("15/18"), GenotypeConfidenceInterval := "14-16/17-19",
     ReferenceRegion := "chrX:200-230", RepeatUnit := "AGC",
     father_id := none, mother_id := none })

/-- A consistent trio whose reference region length (7) is not a
multiple of its repeat unit length (3): the warning fires and processing
continues with the truncated count 2. -/
def trioWarnExample : Trio :=
  ({ SampleId := "P3", Filename := "p3", LocusId := "LOC3", VariantId := "LOC3",
     Genotype := some ("2/2"), GenotypeConfidenceInterval := "2-2/2-2",
     ReferenceRegion := "chr2:100-107", RepeatUnit := "AGC",
     father_id := some ("F3"), mother_id := some ("M3") },
   { SampleId := "F3", Filename := "f3", LocusId := "LOC3", VariantId := "LOC3",
     Genotype := some ("2/2"), GenotypeConfidenceInterval := "2-2/2-2",
     ReferenceRegion := "chr2:100-107", RepeatUnit := "AGC",
     father_id := none, mother_id := none },
   { SampleId := "M3", Filename := "m3", LocusId := "LOC3", VariantId := "LOC3",
     Genotype := some ("2/2"), GenotypeConfidenceInterval := "2-2/2-2",
     ReferenceRegion := "chr2:100-107", RepeatUnit := "AGC",
     father_id := none, mother_id := none })

/-- A trio whose proband and parent alleles are numerically equal but
textually different ("17" versus "017", "20" versus "20"): exact string
matching fails while the integer distance is zero. -/
def trioLeadingZeroExample : Trio :=
  ({ SampleId := "P4", Filename := "p4", LocusId := "LOC4", VariantId := "LOC4",
     Genotype := some ("17/20"), GenotypeConfidenceInterval := "16-18/19-21",
     ReferenceRegion := "chr4:100-151", RepeatUnit := "AGC",
     father_id := some ("F4"), mother_id := some ("M4") },
   { SampleId := "F4", Filename := "f4", LocusId := "LOC4", VariantId := "LOC4",
     Genotype := some ("017/017"), GenotypeConfidenceInterval := "16-18/16-18",
     ReferenceRegion := "chr4:100-151", RepeatUnit := "AGC",
     father_id := none, mother_id := none },
   { SampleId := "M4", Filename := "m4", LocusId := "LOC4", VariantId := "LOC4",
     Genotype := some ("20/22"), GenotypeConfidenceInterval := "19-21/21-23",
     ReferenceRegion := "chr4:100-151", RepeatUnit := "AGC",
     father_id := none, mother_id := none })

/-- An input genotype record whose `father_id` is missing (`NaN` after
the pedigree join): the source filters it out before the trio loop, so
it reaches neither the trio list nor `other_rows`. -/
def rowMissingFather : Row :=
  { SampleId := "P9", Filename := "p9", LocusId := "L9", VariantId := "L9",
    Genotype := some ("10/10"), GenotypeConfidenceInterval := "9-11/9-11",
    ReferenceRegion := "chr9:100-130", RepeatUnit := "AGC",
    father_id := none, mother_id := some ("M9") }

/-- A candidate record (both parent ids present) whose father has no
genotype record at its locus: the source routes it to `other_rows`. -/
def rowOrphanCandidate : Row :=
  { SampleId := "P8", Filename := "p8", LocusId := "L8", VariantId := "L8",
    Genotype := some ("10/10"), GenotypeConfidenceInterval := "9-11/9-11",
    ReferenceRegion := "chr8:100-130", RepeatUnit := "AGC",
    father_id := some ("F8"), mother_id := some ("M8") }

/-! Helper lemmas about `List.min?` on integers. -/

lemma int_min?_mem {xs : List Int} {a : Int} (h : xs.min? = some a) : a ∈ xs :=
  List.min?_mem min_choice h

lemma int_min?_le {xs : List Int} {a b : Int} (h : xs.min? = some a) (hb : b ∈ xs) : a ≤ b :=
  (List.le_min?_iff (fun _ _ _ => le_min_iff) h).mp (le_refl a) b hb

lemma int_min?_isSome {xs : List Int} (h : xs ≠ []) : ∃ a, xs.min? = some a := by
  cases xs with
  | nil => exact absurd rfl h
  | cons x xs => exact ⟨List.foldl min x xs, rfl⟩

lemma int_min?_eq_zero {xs : List Int} {a : Int} (h : xs.min? = some a)
    (hnn : ∀ x ∈ xs, 0 ≤ x) (h0 : (0 : Int) ∈ xs) : a = 0 :=
  le_antisymm (int_min?_le h h0) (hnn a (int_min?_mem h))

lemma contains_iff_mem (l : List String) (a : String) : l.contains a = true ↔ a ∈ l := by
  induction l with
  | nil => simp
  | cons x xs ih => simp [List.contains_cons, ih]

/-! Helper lemmas about the distance functions. -/

lemma mapPyInt_mem {pas : List String} {ps : List Int} {a : String}
    (h : mapPyInt pas = some ps) (ha : a ∈ pas) : ∃ v, pyInt a = some v ∧ v ∈ ps := by
  induction pas generalizing ps with
  | nil => cases ha
  | cons x xs ih =>
    unfold mapPyInt at h
    cases hx : pyInt x with
    | none => rw [hx] at h; exact absurd h (by simp)
    | some v =>
      rw [hx] at h
      cases hxs : mapPyInt xs with
      | none => rw [hxs] at h; exact absurd h (by simp)
      | some vs =>
        rw [hxs] at h
        simp only [Option.some.injEq] at h
        subst h
        cases ha with
        | head => exact ⟨v, hx, List.mem_cons_self _ _⟩
        | tail _ ha =>
          obtain ⟨v', hv', hmem⟩ := ih hxs ha
          exact ⟨v', hv', List.mem_cons_of_mem _ hmem⟩

lemma cmdm_nonneg {p : String} {pas : List String} {d : Int}
    (h : compute_min_distance_mendelian p pas = some d) : 0 ≤ d := by
  unfold compute_min_distance_mendelian at h
  cases hp : pyInt p with
  | none => rw [hp] at h; exact absurd h (by simp)
  | some pv =>
    rw [hp] at h
    cases hps : mapPyInt pas with
    | none => rw [hps] at h; exact absurd h (by simp)
    | some ps =>
      rw [hps] at h
      have := int_min?_mem h
      obtain ⟨x, _, hx⟩ := List.mem_map.mp this
      rw [← hx]
      exact abs_nonneg _

lemma cmdm_self_zero {p : String} {pas : List String} {d : Int}
    (hmem : p ∈ pas) (h : compute_min_distance_mendelian p pas = some d) : d = 0 := by
  unfold compute_min_distance_mendelian at h
  cases hp : pyInt p with
  | none => rw [hp] at h; exact absurd h (by simp)
  | some pv =>
    rw [hp] at h
    cases hps : mapPyInt pas with
    | none => rw [hps] at h; exact absurd h (by simp)
    | some ps =>
      rw [hps] at h
      obtain ⟨v, hv, hvmem⟩ := mapPyInt_mem hps hmem
      rw [hp] at hv
      simp only [Option.some.injEq] at hv
      subst hv
      apply int_min?_eq_zero h
      · intro x hx
        obtain ⟨y, _, hy⟩ := List.mem_map.mp hx
        rw [← hy]; exact abs_nonneg _
      · exact List.mem_map.mpr ⟨pv, hvmem, by simp⟩

/-! Inversion lemmas for the scoring engine. -/

lemma branch_results_one_inv {p0 : String} {fa ma : List String}
    {pCIs fCIs mCIs : List Interval} {okm okci : Bool} {dM dciM : Int}
    (h : branch_results_one p0 fa ma pCIs fCIs mCIs = .ok ((okm, dM), (okci, dciM))) :
    okm = (fa.contains p0 || ma.contains p0) ∧
    ∃ df dm, compute_min_distance_mendelian p0 fa = some df ∧
      compute_min_distance_mendelian p0 ma = some dm ∧ dM = min df dm := by
  unfold branch_results_one at h
  split at h <;> try exact Except.noConfusion h
  rename_i df dm hdf hdm
  split at h <;> try exact Except.noConfusion h
  rename_i pCI0 rest
  split at h <;> try exact Except.noConfusion h
  simp only [Except.ok.injEq, Prod.mk.injEq] at h
  obtain ⟨⟨hok, hd⟩, _, _⟩ := h
  exact ⟨hok.symm, df, dm, hdf, hdm, hd.symm⟩

lemma branch_results_two_inv {p0 p1 : String} {fa ma : List String}
    {pCIs fCIs mCIs : List Interval} {okm okci : Bool} {dM dciM : Int}
    (h : branch_results_two p0 p1 fa ma pCIs fCIs mCIs = .ok ((okm, dM), (okci, dciM))) :
    okm = ((fa.contains p0 && ma.contains p1) || (fa.contains p1 && ma.contains p0)) ∧
    ∃ d0f d1m d1f d0m, compute_min_distance_mendelian p0 fa = some d0f ∧
      compute_min_distance_mendelian p1 ma = some d1m ∧
      compute_min_distance_mendelian p1 fa = some d1f ∧
      compute_min_distance_mendelian p0 ma = some d0m ∧
      dM = min (d0f + d1m) (d1f + d0m) := by
  unfold branch_results_two at h
  split at h <;> try exact Except.noConfusion h
  rename_i d0f d1m d1f d0m h0f h1m h1f h0m
  split at h <;> try exact Except.noConfusion h
  rename_i pCI0 pCI1 rest
  split at h <;> try exact Except.noConfusion h
  simp only [Except.ok.injEq, Prod.mk.injEq] at h
  obtain ⟨⟨hok, hd⟩, _, _⟩ := h
  exact ⟨hok.symm, d0f, d1m, d1f, d0m, h0f, h1m, h1f, h0m, hd.symm⟩

lemma branch_results_consistent_zero {pa fa ma : List String}
    {pCIs fCIs mCIs : List Interval} {okci : Bool} {dM dciM : Int}
    (h : branch_results pa fa ma pCIs fCIs mCIs = .ok ((true, dM), (okci, dciM))) :
    dM = 0 := by
  match pa with
  | [] => exact Except.noConfusion h
  | [p0] =>
    rw [show branch_results [p0] fa ma pCIs fCIs mCIs =
      branch_results_one p0 fa ma pCIs fCIs mCIs from rfl] at h
    obtain ⟨hok, df, dm, hdf, hdm, hd⟩ := branch_results_one_inv h
    subst hd
    rcases Bool.or_eq_true_iff.mp hok.symm with hc | hc
    · have h0 : df = 0 := cmdm_self_zero ((contains_iff_mem _ _).mp hc) hdf
      rw [h0]
      exact min_eq_left (cmdm_nonneg hdm)
    · have h0 : dm = 0 := cmdm_self_zero ((contains_iff_mem _ _).mp hc) hdm
      rw [h0]
      exact min_eq_right (cmdm_nonneg hdf)
  | [p0, p1] =>
    rw [show branch_results [p0, p1] fa ma pCIs fCIs mCIs =
      branch_results_two p0 p1 fa ma pCIs fCIs mCIs from rfl] at h
    obtain ⟨hok, d0f, d1m, d1f, d0m, h0f, h1m, h1f, h0m, hd⟩ := branch_results_two_inv h
    subst hd
    rcases Bool.or_eq_true_iff.mp hok.symm with hp | hp
    · obtain ⟨hf, hm⟩ := Bool.and_eq_true_iff.mp hp
      have e1 : d0f = 0 := cmdm_self_zero ((contains_iff_mem _ _).mp hf) h0f
      have e2 : d1m = 0 := cmdm_self_zero ((contains_iff_mem _ _).mp hm) h1m
      have hnn : 0 ≤ d1f + d0m := add_nonneg (cmdm_nonneg h1f) (cmdm_nonneg h0m)
      rw [e1, e2]
      simpa using min_eq_left hnn
    · obtain ⟨hf, hm⟩ := Bool.and_eq_true_iff.mp hp
      have e1 : d1f = 0 := cmdm_self_zero ((contains_iff_mem _ _).mp hf) h1f
      have e2 : d0m = 0 := cmdm_self_zero ((contains_iff_mem _ _).mp hm) h0m
      have hnn : 0 ≤ d0f + d1m := add_nonneg (cmdm_nonneg h0f) (cmdm_nonneg h1m)
      rw [e1, e2]
      simpa using min_eq_right hnn
  | p0 :: p1 :: p2 :: rest => exact Except.noConfusion h

lemma processTrio_ok_inv {t : Trio} {r : ResultRow} {w : Bool}
    (h : processTrio t = .ok (r, w)) :
    ∃ proband_gt father_gt mother_gt proband_CIs father_CIs mother_CIs okm dM okci dciM
      chrom s0 e1,
      t.1.Genotype = some proband_gt ∧
      t.2.1.Genotype = some father_gt ∧
      t.2.2.Genotype = some mother_gt ∧
      parseCIs t.1.GenotypeConfidenceInterval = some proband_CIs ∧
      parseCIs t.2.1.GenotypeConfidenceInterval = some father_CIs ∧
      parseCIs t.2.2.GenotypeConfidenceInterval = some mother_CIs ∧
      branch_results (splitChar '/' proband_gt) (splitChar '/' father_gt)
        (splitChar '/' mother_gt) proband_CIs father_CIs mother_CIs =
        .ok ((okm, dM), (okci, dciM)) ∧
      parse_interval t.1.ReferenceRegion = some (chrom, s0, e1) ∧
      ¬t.1.RepeatUnit.length = 0 ∧
      r.IsMendelianViolation = !okm ∧
      r.MendelianViolationDistance = dM ∧
      r.IsMendelianViolationCI = !okci ∧
      r.MendelianViolationDistanceCI = dciM ∧
      (okm = true → dM = 0) ∧
      w = decide (¬(e1 - s0) % (t.1.RepeatUnit.length : Int) = 0) ∧
      r.AllGenotypesAreHomozygousReference =
        ((splitChar '/' proband_gt).all (fun a =>
           a == pyStr ((e1 - s0).tdiv (t.1.RepeatUnit.length : Int))) &&
         (splitChar '/' mother_gt).all (fun a =>
           a == pyStr ((e1 - s0).tdiv (t.1.RepeatUnit.length : Int))) &&
         (splitChar '/' father_gt).all (fun a =>
           a == pyStr ((e1 - s0).tdiv (t.1.RepeatUnit.length : Int)))) := by
  unfold processTrio at h
  split at h <;> try exact Except.noConfusion h
  rename_i pg fg mg hpg hfg hmg
  split at h <;> try exact Except.noConfusion h
  split at h <;> try exact Except.noConfusion h
  split at h <;> try exact Except.noConfusion h
  split at h <;> try exact Except.noConfusion h
  rename_i pCIs fCIs mCIs hpc hfc hmc
  split at h <;> try exact Except.noConfusion h
  rename_i okm dM okci dciM hbr
  split at h
  · exact Except.noConfusion h
  rename_i hassert
  split at h <;> try exact Except.noConfusion h
  rename_i chrom s0 e1 hpi
  split at h
  · exact Except.noConfusion h
  rename_i hlen
  simp only [Except.ok.injEq, Prod.mk.injEq] at h
  obtain ⟨hr, hw⟩ := h
  subst hr
  subst hw
  exact ⟨pg, fg, mg, pCIs, fCIs, mCIs, okm, dM, okci, dciM, chrom, s0, e1,
    hpg, hfg, hmg, hpc, hfc, hmc, hbr, hpi, hlen, rfl, rfl, rfl, rfl,
    fun hok => not_not.mp (fun hne => hassert ⟨hok, hne⟩), rfl, rfl⟩

lemma branch_results_error_ne_distanceAssert {pa fa ma : List String}
    {pCIs fCIs mCIs : List Interval}
    (h : branch_results pa fa ma pCIs fCIs mCIs = .error .distanceAssert) : False := by
  unfold branch_results at h
  split at h
  · unfold branch_results_one at h
    split at h <;> try simp at h
    split at h <;> try simp at h
    split at h <;> simp at h
  · unfold branch_results_two at h
    split at h <;> try simp at h
    split at h <;> try simp at h
    split at h <;> simp at h
  · simp at h

lemma processTrio_no_distanceAssert (t : Trio)
    (h : processTrio t = .error .distanceAssert) : False := by
  unfold processTrio at h
  split at h <;> try simp at h
  split at h <;> try simp at h
  split at h <;> try simp at h
  split at h <;> try simp at h
  split at h <;> try simp at h
  split at h
  · rename_i e hbr
    injection h with he
    subst he
    exact branch_results_error_ne_distanceAssert hbr
  · rename_i okm dM okci dciM hbr
    split at h
    · rename_i hcond
      obtain ⟨hok, hne⟩ := hcond
      subst hok
      exact hne (branch_results_consistent_zero hbr)
    · split at h <;> try simp at h
      split at h <;> simp at h

/-! Lemmas about trio grouping. -/

/-- Unfolding equation for `group_go` on a cons cell. -/
lemma group_go_cons (pairs : List (TrioKey × Row)) (x : Row) (xs : List Row) :
    group_go pairs (x :: xs) =
      match x.father_id, x.mother_id with
      | some fid, some mid =>
        match dict_get pairs (fid, x.LocusId, x.VariantId),
              dict_get pairs (mid, x.LocusId, x.VariantId) with
        | some father_row, some mother_row =>
          ((x, father_row, mother_row) :: (group_go pairs xs).1, (group_go pairs xs).2)
        | _, _ => ((group_go pairs xs).1, x :: (group_go pairs xs).2)
      | _, _ => group_go pairs xs := rfl

lemma group_go_complete {pairs : List (TrioKey × Row)} :
    ∀ (l : List Row) (row : Row), row ∈ l →
      row.father_id.isSome = true → row.mother_id.isSome = true →
      (∃ f m, (row, f, m) ∈ (group_go pairs l).1) ∨ row ∈ (group_go pairs l).2 := by
  intro l
  induction l with
  | nil => intro row h; cases h
  | cons x xs ih =>
    intro row hmem hf hm
    cases hmem with
    | head =>
      obtain ⟨fid, hfid⟩ := Option.isSome_iff_exists.mp hf
      obtain ⟨mid, hmid⟩ := Option.isSome_iff_exists.mp hm
      cases hF : dict_get pairs (fid, x.LocusId, x.VariantId) with
      | some f0 =>
        cases hM : dict_get pairs (mid, x.LocusId, x.VariantId) with
        | some m0 =>
          left
          exact ⟨f0, m0, by simp [group_go_cons, hfid, hmid, hF, hM]⟩
        | none =>
          right
          simp [group_go_cons, hfid, hmid, hF, hM]
      | none =>
        cases hM : dict_get pairs (mid, x.LocusId, x.VariantId) with
        | some m0 =>
          right
          simp [group_go_cons, hfid, hmid, hF, hM]
        | none =>
          right
          simp [group_go_cons, hfid, hmid, hF, hM]
    | tail _ hmem' =>
      rcases ih row hmem' hf hm with ⟨f, m, hfm⟩ | ho
      · cases hxf : x.father_id with
        | none => exact Or.inl ⟨f, m, by simp [group_go_cons, hxf]; exact hfm⟩
        | some fid =>
          cases hxm : x.mother_id with
          | none => exact Or.inl ⟨f, m, by simp [group_go_cons, hxf, hxm]; exact hfm⟩
          | some mid =>
            cases hF : dict_get pairs (fid, x.LocusId, x.VariantId) with
            | some f0 =>
              cases hM : dict_get pairs (mid, x.LocusId, x.VariantId) with
              | some m0 =>
                exact Or.inl ⟨f, m, by
                  simp only [group_go_cons, hxf, hxm, hF, hM]
                  exact List.mem_cons_of_mem _ hfm⟩
              | none =>
                exact Or.inl ⟨f, m, by simp only [group_go_cons, hxf, hxm, hF, hM]; exact hfm⟩
            | none =>
              cases hM : dict_get pairs (mid, x.LocusId, x.VariantId) with
              | some m0 =>
                exact Or.inl ⟨f, m, by simp only [group_go_cons, hxf, hxm, hF, hM]; exact hfm⟩
              | none =>
                exact Or.inl ⟨f, m, by simp only [group_go_cons, hxf, hxm, hF, hM]; exact hfm⟩
      · cases hxf : x.father_id with
        | none => exact Or.inr (by simp [group_go_cons, hxf]; exact ho)
        | some fid =>
          cases hxm : x.mother_id with
          | none => exact Or.inr (by simp [group_go_cons, hxf, hxm]; exact ho)
          | some mid =>
            cases hF : dict_get pairs (fid, x.LocusId, x.VariantId) with
            | some f0 =>
              cases hM : dict_get pairs (mid, x.LocusId, x.VariantId) with
              | some m0 =>
                exact Or.inr (by simp only [group_go_cons, hxf, hxm, hF, hM]; exact ho)
              | none =>
                exact Or.inr (by
                  simp only [group_go_cons, hxf, hxm, hF, hM]
                  exact List.mem_cons_of_mem _ ho)
            | none =>
              cases hM : dict_get pairs (mid, x.LocusId, x.VariantId) with
              | some m0 =>
                exact Or.inr (by
                  simp only [group_go_cons, hxf, hxm, hF, hM]
                  exact List.mem_cons_of_mem _ ho)
              | none =>
                exact Or.inr (by
                  simp only [group_go_cons, hxf, hxm, hF, hM]
                  exact List.mem_cons_of_mem _ ho)

lemma group_go_orphan_father {pairs : List (TrioKey × Row)} :
    ∀ (l : List Row) (row : Row) (fid mid : String), row ∈ l →
      row.father_id = some fid → row.mother_id = some mid →
      dict_get pairs (fid, row.LocusId, row.VariantId) = none →
      row ∈ (group_go pairs l).2 := by
  intro l
  induction l with
  | nil => intro row fid mid h; cases h
  | cons x xs ih =>
    intro row fid mid hmem hfid hmid hF
    cases hmem with
    | head =>
      cases hM : dict_get pairs (mid, x.LocusId, x.VariantId) with
      | some m0 =>
        rw [group_go_cons]
        simp only [hfid, hmid, hF, hM]
        exact List.mem_cons_self _ _
      | none =>
        rw [group_go_cons]
        simp only [hfid, hmid, hF, hM]
        exact List.mem_cons_self _ _
    | tail _ hmem' =>
      have hrec := ih row fid mid hmem' hfid hmid hF
      cases hxf : x.father_id with
      | none =>
        rw [group_go_cons]
        simp only [hxf]
        exact hrec
      | some fid0 =>
        cases hxm : x.mother_id with
        | none =>
          rw [group_go_cons]
          simp only [hxf, hxm]
          exact hrec
        | some mid0 =>
          cases hF0 : dict_get pairs (fid0, x.LocusId, x.VariantId) with
          | some f0 =>
            cases hM0 : dict_get pairs (mid0, x.LocusId, x.VariantId) with
            | some m0 =>
              rw [group_go_cons]
              simp only [hxf, hxm, hF0, hM0]
              exact hrec
            | none =>
              rw [group_go_cons]
              simp only [hxf, hxm, hF0, hM0]
              exact List.mem_cons_of_mem _ hrec
          | none =>
            cases hM0 : dict_get pairs (mid0, x.LocusId, x.VariantId) with
            | some m0 =>
              rw [group_go_cons]
              simp only [hxf, hxm, hF0, hM0]
              exact List.mem_cons_of_mem _ hrec
            | none =>
              rw [group_go_cons]
              simp only [hxf, hxm, hF0, hM0]
              exact List.mem_cons_of_mem _ hrec

lemma group_go_proband_mem {pairs : List (TrioKey × Row)} :
    ∀ (l : List Row) (row f m : Row), (row, f, m) ∈ (group_go pairs l).1 → row ∈ l := by
  intro l
  induction l with
  | nil => intro row f m h; cases h
  | cons x xs ih =>
    intro row f m h
    cases hxf : x.father_id with
    | none =>
      rw [group_go_cons] at h
      simp only [hxf] at h
      exact List.mem_cons_of_mem _ (ih row f m h)
    | some fid =>
      cases hxm : x.mother_id with
      | none =>
        rw [group_go_cons] at h
        simp only [hxf, hxm] at h
        exact List.mem_cons_of_mem _ (ih row f m h)
      | some mid =>
        cases hF : dict_get pairs (fid, x.LocusId, x.VariantId) with
        | some f0 =>
          cases hM : dict_get pairs (mid, x.LocusId, x.VariantId) with
          | some m0 =>
            rw [group_go_cons] at h
            simp only [hxf, hxm, hF, hM] at h
            cases h with
            | head => exact List.mem_cons_self _ _
            | tail _ h' => exact List.mem_cons_of_mem _ (ih row f m h')
          | none =>
            rw [group_go_cons] at h
            simp only [hxf, hxm, hF, hM] at h
            exact List.mem_cons_of_mem _ (ih row f m h)
        | none =>
          cases hM : dict_get pairs (mid, x.LocusId, x.VariantId) with
          | some m0 =>
            rw [group_go_cons] at h
            simp only [hxf, hxm, hF, hM] at h
            exact List.mem_cons_of_mem _ (ih row f m h)
          | none =>
            rw [group_go_cons] at h
            simp only [hxf, hxm, hF, hM] at h
            exact List.mem_cons_of_mem _ (ih row f m h)

lemma group_go_other_mem {pairs : List (TrioKey × Row)} :
    ∀ (l : List Row) (row : Row), row ∈ (group_go pairs l).2 → row ∈ l := by
  intro l
  induction l with
  | nil => intro row h; cases h
  | cons x xs ih =>
    intro row h
    cases hxf : x.father_id with
    | none =>
      rw [group_go_cons] at h
      simp only [hxf] at h
      exact List.mem_cons_of_mem _ (ih row h)
    | some fid =>
      cases hxm : x.mother_id with
      | none =>
        rw [group_go_cons] at h
        simp only [hxf, hxm] at h
        exact List.mem_cons_of_mem _ (ih row h)
      | some mid =>
        cases hF : dict_get pairs (fid, x.LocusId, x.VariantId) with
        | some f0 =>
          cases hM : dict_get pairs (mid, x.LocusId, x.VariantId) with
          | some m0 =>
            rw [group_go_cons] at h
            simp only [hxf, hxm, hF, hM] at h
            exact List.mem_cons_of_mem _ (ih row h)
          | none =>
            rw [group_go_cons] at h
            simp only [hxf, hxm, hF, hM] at h
            cases h with
            | head => exact List.mem_cons_self _ _
            | tail _ h' => exact List.mem_cons_of_mem _ (ih row h')
        | none =>
          cases hM : dict_get pairs (mid, x.LocusId, x.VariantId) with
          | some m0 =>
            rw [group_go_cons] at h
            simp only [hxf, hxm, hF, hM] at h
            cases h with
            | head => exact List.mem_cons_self _ _
            | tail _ h' => exact List.mem_cons_of_mem _ (ih row h')
          | none =>
            rw [group_go_cons] at h
            simp only [hxf, hxm, hF, hM] at h
            cases h with
            | head => exact List.mem_cons_self _ _
            | tail _ h' => exact List.mem_cons_of_mem _ (ih row h')

/-! Lemmas about the violation counters. -/

lemma sumCounters_incr (cs : List (String × Nat)) (k : String) :
    sumCounters (incrCounter cs k) = sumCounters cs + 1 := by
  induction cs with
  | nil => simp [incrCounter, sumCounters]
  | cons c rest ih =>
    obtain ⟨k0, n⟩ := c
    by_cases hk : k0 = k
    · simp [incrCounter, hk, sumCounters]
      omega
    · simp [incrCounter, hk, sumCounters] at *
      omega

lemma cmv_go_inv :
    ∀ (trios : List Trio) (rows0 : List ResultRow) (cs0 csci0 : List (String × Nat))
      (rows : List ResultRow) (cs csci : List (String × Nat)),
      cmv_go trios rows0 cs0 csci0 = .ok (rows, cs, csci) →
      sumCounters cs0 = (rows0.filter (fun r => r.IsMendelianViolation)).length →
      sumCounters cs = (rows.filter (fun r => r.IsMendelianViolation)).length := by
  intro trios
  induction trios with
  | nil =>
    intro rows0 cs0 csci0 rows cs csci h h0
    unfold cmv_go at h
    simp only [Except.ok.injEq, Prod.mk.injEq] at h
    obtain ⟨h1, h2, h3⟩ := h
    subst h1
    subst h2
    exact h0
  | cons t rest ih =>
    intro rows0 cs0 csci0 rows cs csci h h0
    unfold cmv_go at h
    split at h
    · exact Except.noConfusion h
    rename_i r wflag hpt
    apply ih _ _ _ _ _ _ h
    cases hv : r.IsMendelianViolation with
    | false =>
      simp [hv, List.filter_append, h0, List.filter]
    | true =>
      simp [hv, sumCounters_incr, List.filter_append, h0, List.filter]

/-! Lemmas about duplicate-key counting. -/

lemma dupCountAux_eq_zero_iff {A : Type} [DecidableEq A] :
    ∀ (l seen : List A), dupCountAux seen l = 0 ↔ l.Nodup ∧ ∀ x ∈ l, x ∉ seen := by
  intro l
  induction l with
  | nil => intro seen; simp [dupCountAux]
  | cons x xs ih =>
    intro seen
    by_cases hx : x ∈ seen
    · simp only [dupCountAux, if_pos hx]
      constructor
      · intro h; exact absurd h (by omega)
      · rintro ⟨_, hall⟩
        exact absurd hx (hall x (List.mem_cons_self x xs))
    · simp only [dupCountAux, if_neg hx, Nat.zero_add]
      rw [ih (x :: seen)]
      constructor
      · rintro ⟨hnd, hall⟩
        refine ⟨List.nodup_cons.mpr ⟨fun hxx => ?_, hnd⟩, ?_⟩
        · exact (hall x hxx) (List.mem_cons_self x seen)
        · intro y hy
          cases hy with
          | head => exact hx
          | tail _ hy' => exact fun hys => (hall y hy') (List.mem_cons_of_mem _ hys)
      · rintro ⟨hnd, hall⟩
        obtain ⟨hxnot, hnd'⟩ := List.nodup_cons.mp hnd
        refine ⟨hnd', ?_⟩
        intro y hy hyx
        cases List.mem_cons.mp hyx with
        | inl h' => subst h'; exact hxnot hy
        | inr h' => exact (hall y (List.mem_cons_of_mem _ hy)) h'

lemma dupCount_eq_zero_iff {A : Type} [DecidableEq A] (l : List A) :
    dupCount l = 0 ↔ l.Nodup := by
  unfold dupCount
  rw [dupCountAux_eq_zero_iff]
  simp

lemma check_for_duplicate_keys_eq {A : Type} [DecidableEq A] (keys : List A) :
    check_for_duplicate_keys keys =
      if keys.Nodup then .ok () else .error .duplicateKeys := by
  unfold check_for_duplicate_keys
  by_cases h : keys.Nodup
  · rw [if_pos h, if_neg]
    simp [(dupCount_eq_zero_iff keys).mpr h]
  · have hz : dupCount keys ≠ 0 := fun hz => h ((dupCount_eq_zero_iff _).mp hz)
    rw [if_pos (Nat.pos_of_ne_zero hz), if_neg h]

/-- Claim C5: the interval overlap test returns true iff
NOT (a.end < b.start OR b.end < a.start); it is symmetric; and the
closed-interval convention makes the touching pair
`Interval(10, 20)` / `Interval(20, 30)` overlap. -/
theorem intervals_overlap_spec :
    (∀ a b : Interval,
      (intervals_overlap a b = true ↔ ¬(a.iend < b.begin ∨ b.iend < a.begin)) ∧
      intervals_overlap a b = intervals_overlap b a) ∧
    intervals_overlap ⟨10, 20⟩ ⟨20, 30⟩ = true := by
  refine ⟨fun a b => ⟨?_, ?_⟩, by decide⟩
  · simp [intervals_overlap]
  · simp only [intervals_overlap]
    by_cases h1 : a.iend < b.begin <;> by_cases h2 : b.iend < a.begin <;> simp [h1, h2]

/-- Claim C6: `compute_min_distance_mendelian` returns the minimum
absolute difference between the parsed proband allele and the parsed
parent alleles (in particular `0` when the proband allele itself is in
the parent list), `compute_min_distance_mendelian_ci` returns the
minimum absolute inter-interval distance (which is `0` as soon as the
proband interval overlaps some parent interval), and both functions
fail — return `none`, modelling the `ValueError` from `min([])` — on an
empty parent list. -/
theorem min_distance_spec :
    (∀ s : String, ∀ v : Int, pyInt s = some v →
      compute_min_distance_mendelian s [s] = some 0) ∧
    (∀ (p : String) (pas : List String) (pv : Int) (ps : List Int),
      pyInt p = some pv → mapPyInt pas = some ps → pas ≠ [] →
      ∃ d, compute_min_distance_mendelian p pas = some d ∧
        d ∈ ps.map (fun pa => |pv - pa|) ∧
        ∀ y ∈ ps.map (fun pa => |pv - pa|), d ≤ y) ∧
    (∀ (i : Interval) (is_ : List Interval), is_ ≠ [] →
      ∃ d, compute_min_distance_mendelian_ci i is_ = some d ∧
        d ∈ is_.map (fun j => |i.distance_to j|) ∧
        (∀ y ∈ is_.map (fun j => |i.distance_to j|), d ≤ y) ∧
        (∀ j ∈ is_, intervals_overlap i j = true → d = 0)) ∧
    (∀ s : String, compute_min_distance_mendelian s [] = none) ∧
    (∀ i : Interval, compute_min_distance_mendelian_ci i [] = none) := by
  refine ⟨?_, ?_, ?_, ?_, ?_⟩
  · intro s v hv
    have h0 : compute_min_distance_mendelian s [s] = some 0 ∨
        compute_min_distance_mendelian s [s] = none := by
      unfold compute_min_distance_mendelian
      rw [hv]
      simp [mapPyInt, hv, List.min?]
    rcases h0 with h | h
    · exact h
    · exfalso
      unfold compute_min_distance_mendelian at h
      rw [hv] at h
      simp [mapPyInt, hv, List.min?] at h
  · intro p pas pv ps hp hps hne
    have hpsne : ps ≠ [] := by
      intro hnil
      subst hnil
      cases pas with
      | nil => exact hne rfl
      | cons x xs =>
        unfold mapPyInt at hps
        cases hx : pyInt x <;> rw [hx] at hps
        · exact absurd hps (by simp)
        · cases hxs : mapPyInt xs <;> rw [hxs] at hps <;> simp at hps
    have hmapne : ps.map (fun pa => |pv - pa|) ≠ [] := by
      simpa using hpsne
    obtain ⟨d, hd⟩ := int_min?_isSome hmapne
    refine ⟨d, ?_, int_min?_mem hd, fun y hy => int_min?_le hd hy⟩
    unfold compute_min_distance_mendelian
    rw [hp, hps]
    exact hd
  · intro i is_ hne
    have hmapne : is_.map (fun j => |i.distance_to j|) ≠ [] := by
      simpa using hne
    obtain ⟨d, hd⟩ := int_min?_isSome hmapne
    refine ⟨d, hd, int_min?_mem hd, fun y hy => int_min?_le hd hy, ?_⟩
    intro j hj hov
    apply int_min?_eq_zero hd
    · intro x hx
      obtain ⟨y, _, hy⟩ := List.mem_map.mp hx
      rw [← hy]; exact abs_nonneg _
    · refine List.mem_map.mpr ⟨j, hj, ?_⟩
      simp [Interval.distance_to, hov]
  · intro s
    unfold compute_min_distance_mendelian
    cases hp : pyInt s <;> simp [mapPyInt, List.min?]
  · intro i
    simp [compute_min_distance_mendelian_ci, List.min?]

/-- Witness for `min_distance_spec` at concrete inputs. -/
theorem min_distance_spec_witness :
    compute_min_distance_mendelian ("5") [("5")] = some 0 ∧
    (∃ d, compute_min_distance_mendelian_ci ⟨10, 20⟩ [⟨20, 30⟩] = some d ∧
      d ∈ [⟨20, 30⟩].map (fun j => |Interval.distance_to ⟨10, 20⟩ j|) ∧
      (∀ y ∈ [⟨20, 30⟩].map (fun j => |Interval.distance_to ⟨10, 20⟩ j|), d ≤ y) ∧
      (∀ j ∈ [(⟨20, 30⟩ : Interval)], intervals_overlap ⟨10, 20⟩ j = true → d = 0)) := by
  constructor
  · exact min_distance_spec.1 ("5") 5 (by decide)
  · exact min_distance_spec.2.2.1 ⟨10, 20⟩ [⟨20, 30⟩] (by simp)

/-- Claim C1: for a trio whose proband has exactly two alleles, the
exact-match consistency flag (`IsMendelianViolation = false`) holds iff
one of the two allele-to-parent assignment permutations fully matches,
and the exact minimum distance is the minimum over the two permutations
of the summed per-allele minimum distances; for proband 17/20, father
17/17, mother 20/22 the flag is consistent with distance 0. -/
theorem two_allele_exact_consistency_and_distance :
    (∀ (t : Trio) (r : ResultRow) (w : Bool) (pg fg mg p0 p1 : String),
      processTrio t = .ok (r, w) →
      t.1.Genotype = some pg → t.2.1.Genotype = some fg → t.2.2.Genotype = some mg →
      splitChar '/' pg = [p0, p1] →
      ((r.IsMendelianViolation = false ↔
        ((p0 ∈ splitChar '/' fg ∧ p1 ∈ splitChar '/' mg) ∨
         (p1 ∈ splitChar '/' fg ∧ p0 ∈ splitChar '/' mg))) ∧
       ∀ d0f d1m d1f d0m : Int,
         compute_min_distance_mendelian p0 (splitChar '/' fg) = some d0f →
         compute_min_distance_mendelian p1 (splitChar '/' mg) = some d1m →
         compute_min_distance_mendelian p1 (splitChar '/' fg) = some d1f →
         compute_min_distance_mendelian p0 (splitChar '/' mg) = some d0m →
         r.MendelianViolationDistance = min (d0f + d1m) (d1f + d0m))) ∧
    (∃ ciRes, branch_results ["17", "20"] ["17", "17"] ["20", "22"]
      [⟨16, 18⟩, ⟨19, 21⟩] [⟨16, 18⟩, ⟨16, 18⟩] [⟨19, 21⟩, ⟨21, 23⟩] =
      .ok ((true, 0), ciRes)) := by
  constructor
  · intro t r w pg fg mg p0 p1 h hpg hfg hmg hsplit
    obtain ⟨pg', fg', mg', pCIs, fCIs, mCIs, okm, dM, okci, dciM, chrom, s0, e1,
      hpg', hfg', hmg', _hpc, _hfc, _hmc, hbr, _hpi, _hlen, hIsMV, hDist,
      _h1, _h2, _h3, _h4, _h5⟩ := processTrio_ok_inv h
    rw [hpg] at hpg'
    rw [hfg] at hfg'
    rw [hmg] at hmg'
    obtain rfl := Option.some.inj hpg'
    obtain rfl := Option.some.inj hfg'
    obtain rfl := Option.some.inj hmg'
    rw [hsplit] at hbr
    rw [show branch_results [p0, p1] (splitChar '/' fg) (splitChar '/' mg) pCIs fCIs mCIs =
      branch_results_two p0 p1 (splitChar '/' fg) (splitChar '/' mg) pCIs fCIs mCIs
      from rfl] at hbr
    obtain ⟨hok, d0f, d1m, d1f, d0m, h0f, h1m, h1f, h0m, hd⟩ := branch_results_two_inv hbr
    constructor
    · rw [hIsMV, hok]
      simp [contains_iff_mem]
      tauto
    · intro a b c d ha hb hc hd'
      rw [h0f] at ha
      rw [h1m] at hb
      rw [h1f] at hc
      rw [h0m] at hd'
      obtain rfl := Option.some.inj ha
      obtain rfl := Option.some.inj hb
      obtain rfl := Option.some.inj hc
      obtain rfl := Option.some.inj hd'
      rw [hDist, hd]
  · exact ⟨_, rfl⟩

/-- Witness for `two_allele_exact_consistency_and_distance` on the
concrete spec trio 17/20, 17/17, 20/22. -/
theorem two_allele_exact_consistency_witness :
    ∃ r w, processTrio trioHetExample = .ok (r, w) ∧
      (r.IsMendelianViolation = false ↔
        (("17" ∈ splitChar '/' ("17/17") ∧ "20" ∈ splitChar '/' ("20/22")) ∨
         ("20" ∈ splitChar '/' ("17/17") ∧ "17" ∈ splitChar '/' ("20/22")))) := by
  refine ⟨_, _, rfl, ?_⟩
  exact (two_allele_exact_consistency_and_distance.1 trioHetExample _ _
    ("17/20") ("17/17") ("20/22") ("17") ("20") rfl rfl rfl rfl (by decide)).1

/-- Claim C2: for a trio whose proband has exactly one allele
(hemizygous case), the exact-match consistency flag holds iff the
proband allele equals some father allele or some mother allele (either
parent accepted), and the exact minimum distance is the minimum of the
minimum distances to father and mother alleles; for proband 15, father
10/10, mother 15/18 the flag is consistent with distance 0. -/
theorem single_allele_exact_consistency_and_distance :
    (∀ (t : Trio) (r : ResultRow) (w : Bool) (pg fg mg p0 : String),
      processTrio t = .ok (r, w) →
      t.1.Genotype = some pg → t.2.1.Genotype = some fg → t.2.2.Genotype = some mg →
      splitChar '/' pg = [p0] →
      ((r.IsMendelianViolation = false ↔
        (p0 ∈ splitChar '/' fg ∨ p0 ∈ splitChar '/' mg)) ∧
       ∀ df dm : Int,
         compute_min_distance_mendelian p0 (splitChar '/' fg) = some df →
         compute_min_distance_mendelian p0 (splitChar '/' mg) = some dm →
         r.MendelianViolationDistance = min df dm)) ∧
    (∃ ciRes, branch_results ["15"] ["10", "10"] ["15", "18"]
      [⟨14, 16⟩] [⟨9, 11⟩, ⟨9, 11⟩] [⟨14, 16⟩, ⟨17, 19⟩] =
      .ok ((true, 0), ciRes)) := by
  constructor
  · intro t r w pg fg mg p0 h hpg hfg hmg hsplit
    obtain ⟨pg', fg', mg', pCIs, fCIs, mCIs, okm, dM, okci, dciM, chrom, s0, e1,
      hpg', hfg', hmg', _hpc, _hfc, _hmc, hbr, _hpi, _hlen, hIsMV, hDist,
      _h1, _h2, _h3, _h4, _h5⟩ := processTrio_ok_inv h
    rw [hpg] at hpg'
    rw [hfg] at hfg'
    rw [hmg] at hmg'
    obtain rfl := Option.some.inj hpg'
    obtain rfl := Option.some.inj hfg'
    obtain rfl := Option.some.inj hmg'
    rw [hsplit] at hbr
    rw [show branch_results [p0] (splitChar '/' fg) (splitChar '/' mg) pCIs fCIs mCIs =
      branch_results_one p0 (splitChar '/' fg) (splitChar '/' mg) pCIs fCIs mCIs
      from rfl] at hbr
    obtain ⟨hok, df, dm, hdf, hdm, hd⟩ := branch_results_one_inv hbr
    constructor
    · rw [hIsMV, hok]
      simp [contains_iff_mem]
      tauto
    · intro a b ha hb
      rw [hdf] at ha
      rw [hdm] at hb
      obtain rfl := Option.some.inj ha
      obtain rfl := Option.some.inj hb
      rw [hDist, hd]
  · exact ⟨_, rfl⟩

/-- Witness for `single_allele_exact_consistency_and_distance` on the
concrete spec trio 15, 10/10, 15/18. -/
theorem single_allele_exact_consistency_witness :
    ∃ r w, processTrio trioHemiExample = .ok (r, w) ∧
      (r.IsMendelianViolation = false ↔
        ("15" ∈ splitChar '/' ("10/10") ∨ "15" ∈ splitChar '/' ("15/18"))) := by
  refine ⟨_, _, rfl, ?_⟩
  exact (single_allele_exact_consistency_and_distance.1 trioHemiExample _ _
    ("15") ("10/10") ("15/18") ("15") rfl rfl rfl rfl (by decide)).1

/-- Claim C3: whenever the exact-match consistency flag is true
(`IsMendelianViolation = false`), the computed exact minimum distance is
exactly zero, so the `assert distance_mendelian == 0` guard can never
fail: no run of `processTrio` returns the `distanceAssert` error. -/
theorem exact_consistent_implies_zero_distance :
    ∀ t : Trio,
      (∀ r w, processTrio t = .ok (r, w) → r.IsMendelianViolation = false →
        r.MendelianViolationDistance = 0) ∧
      (∀ e, processTrio t = .error e → ¬e = Err.distanceAssert) := by
  intro t
  constructor
  · intro r w h hflag
    obtain ⟨pg, fg, mg, pCIs, fCIs, mCIs, okm, dM, okci, dciM, chrom, s0, e1,
      _, _, _, _, _, _, hbr, _, _, hIsMV, hDist, _, _, hzero, _, _⟩ := processTrio_ok_inv h
    rw [hIsMV] at hflag
    have hok : okm = true := by
      cases okm with
      | false => exact absurd hflag (by decide)
      | true => rfl
    rw [hDist]
    exact hzero hok
  · intro e h hc
    subst hc
    exact processTrio_no_distanceAssert t h

/-- Witness for `exact_consistent_implies_zero_distance` on a concrete
consistent trio. -/
theorem exact_consistent_implies_zero_distance_witness :
    ∃ r w, processTrio trioHetExample = .ok (r, w) ∧ r.IsMendelianViolation = false ∧
      r.MendelianViolationDistance = 0 := by
  refine ⟨_, _, rfl, rfl, ?_⟩
  exact (exact_consistent_implies_zero_distance trioHetExample).1 _ _ rfl rfl

/-- Claim C9: for every successfully evaluated trio, the reference
repeat count used for the homozygous-reference columns is the truncated
integer quotient of the reference region length by the repeat-unit
length, the warning (the `Bool` returned by `processTrio`) fires iff the
division is not exact, and an inexact division is non-fatal: the
concrete trio `trioWarnExample` with region length 7 and repeat unit
length 3 still produces a result row, using the truncated count 2. -/
theorem reference_repeat_count_spec :
    (∀ (t : Trio) (r : ResultRow) (w : Bool) (chrom : String) (s0 e1 : Int),
      processTrio t = .ok (r, w) →
      parse_interval t.1.ReferenceRegion = some (chrom, s0, e1) →
      ((w = true ↔ ¬(e1 - s0) % (t.1.RepeatUnit.length : Int) = 0) ∧
       ∀ pg fg mg : String,
         t.1.Genotype = some pg → t.2.1.Genotype = some fg → t.2.2.Genotype = some mg →
         r.AllGenotypesAreHomozygousReference =
           ((splitChar '/' pg).all (fun a =>
              a == pyStr ((e1 - s0).tdiv (t.1.RepeatUnit.length : Int))) &&
            (splitChar '/' mg).all (fun a =>
              a == pyStr ((e1 - s0).tdiv (t.1.RepeatUnit.length : Int))) &&
            (splitChar '/' fg).all (fun a =>
              a == pyStr ((e1 - s0).tdiv (t.1.RepeatUnit.length : Int)))))) ∧
    (∃ r, processTrio trioWarnExample = .ok (r, true) ∧
      r.AllGenotypesAreHomozygousReference = true) := by
  constructor
  · intro t r w chrom s0 e1 h hpi
    obtain ⟨pg', fg', mg', pCIs, fCIs, mCIs, okm, dM, okci, dciM, chrom', s0', e1',
      hpg', hfg', hmg', _, _, _, _hbr, hpi', _hlen, _, _, _, _, _, hw, hhom⟩ :=
      processTrio_ok_inv h
    rw [hpi] at hpi'
    have hinj := Option.some.inj hpi'
    obtain ⟨rfl, rfl, rfl⟩ : chrom = chrom' ∧ s0 = s0' ∧ e1 = e1' := by
      simpa [Prod.ext_iff] using hinj
    constructor
    · rw [hw]
      simp
    · intro pg fg mg hpg hfg hmg
      rw [hpg] at hpg'
      rw [hfg] at hfg'
      rw [hmg] at hmg'
      obtain rfl := Option.some.inj hpg'
      obtain rfl := Option.some.inj hfg'
      obtain rfl := Option.some.inj hmg'
      exact hhom
  · exact ⟨_, rfl, rfl⟩

/-- Witness for `reference_repeat_count_spec`: on the concrete trio with
region length 7 and repeat unit length 3 the warning flag is set. -/
theorem reference_repeat_count_witness :
    ∃ r w, processTrio trioWarnExample = .ok (r, w) ∧ w = true := by
  refine ⟨_, _, rfl, ?_⟩
  exact ((reference_repeat_count_spec.1 trioWarnExample _ _ ("chr2") 100 107 rfl rfl).1).mpr
    (by decide)

/-- Claim C10: exact-match consistency compares allele strings verbatim
while the distance compares parsed integers, so the trio with proband
17/20, father 017/017 and mother 20/22 — numerically consistent but
textually mismatched — yields a result row with `IsMendelianViolation`
true and `MendelianViolationDistance` zero. -/
theorem string_vs_int_comparison_discrepancy :
    ∃ r w, processTrio trioLeadingZeroExample = .ok (r, w) ∧
      r.IsMendelianViolation = true ∧ r.MendelianViolationDistance = 0 ∧
      r.ProbandGenotype = "17/20" ∧ r.FatherGenotype = "017/017" :=
  ⟨_, _, rfl, rfl, rfl, rfl, rfl⟩

/-- Claim C4 (counterexample): an input genotype record with a missing
`father_id` is filtered out before the trio loop, so it is matched into
no trio and also never reaches the non-trio (`other_rows`) output —
both outputs are empty even though the record was in the input. -/
theorem missing_parent_id_row_in_neither_output :
    rowMissingFather ∈ [rowMissingFather] ∧
    group_rows_by_trio [rowMissingFather] = ([], []) :=
  ⟨List.mem_singleton.mpr rfl, rfl⟩

/-- Claim C4 (amended): every candidate record — one whose `father_id`
and `mother_id` are both present — is either emitted as the proband of
a complete trio or placed in the non-trio collection; in particular a
candidate whose `father_id` has no corresponding genotype record at its
locus (the dual-keyed cache lookup misses) is placed in the non-trio
collection; while a record with a missing parent id appears in neither
output. -/
theorem candidate_rows_partitioned :
    (∀ (rows : List Row) (row : Row), row ∈ rows →
      row.father_id.isSome = true → row.mother_id.isSome = true →
      ((∃ f m, (row, f, m) ∈ (group_rows_by_trio rows).1) ∨
        row ∈ (group_rows_by_trio rows).2)) ∧
    (∀ (rows : List Row) (row : Row) (fid mid : String), row ∈ rows →
      row.father_id = some fid → row.mother_id = some mid →
      dict_get (all_rows_pairs rows) (fid, row.LocusId, row.VariantId) = none →
      row ∈ (group_rows_by_trio rows).2) ∧
    (∀ (rows : List Row) (row : Row), row.father_id = none ∨ row.mother_id = none →
      (∀ f m, ¬(row, f, m) ∈ (group_rows_by_trio rows).1) ∧
      ¬row ∈ (group_rows_by_trio rows).2) := by
  refine ⟨?_, ?_, ?_⟩
  · intro rows row hmem hf hm
    exact group_go_complete _ row
      (List.mem_filter.mpr ⟨hmem, by simp [hf, hm]⟩) hf hm
  · intro rows row fid mid hmem hfid hmid hF
    exact group_go_orphan_father _ row fid mid
      (List.mem_filter.mpr ⟨hmem, by simp [hfid, hmid]⟩) hfid hmid hF
  · intro rows row hnone
    have hnotf : ¬(row.father_id.isSome && row.mother_id.isSome) = true := by
      rcases hnone with h | h <;> simp [h]
    constructor
    · intro f m hmem
      have := group_go_proband_mem _ row f m hmem
      exact hnotf (List.mem_filter.mp this).2
    · intro hmem
      have := group_go_other_mem _ row hmem
      exact hnotf (List.mem_filter.mp this).2

/-- Witness for `candidate_rows_partitioned`: the concrete candidate
`rowOrphanCandidate`, whose father "F8" has no genotype record at its
locus, lands in the non-trio output. -/
theorem candidate_rows_partitioned_witness :
    ((∃ f m, (rowOrphanCandidate, f, m) ∈ (group_rows_by_trio [rowOrphanCandidate]).1) ∨
      rowOrphanCandidate ∈ (group_rows_by_trio [rowOrphanCandidate]).2) ∧
    rowOrphanCandidate ∈ (group_rows_by_trio [rowOrphanCandidate]).2 :=
  ⟨candidate_rows_partitioned.1 [rowOrphanCandidate] rowOrphanCandidate
      (List.mem_singleton.mpr rfl) rfl rfl,
   candidate_rows_partitioned.2.1 [rowOrphanCandidate] rowOrphanCandidate
      ("F8") ("M8") (List.mem_singleton.mpr rfl) rfl rfl rfl⟩

/-- Claim C7: when `compute_mendelian_violations` succeeds, the
per-locus exact-violation counters (keyed by locus plus repeat unit,
incremented once per violating trio-locus evaluation) sum, across all
loci, to the number of result rows whose `IsMendelianViolation` field
is true. -/
theorem counters_sum_equals_violation_rows :
    ∀ (trio_rows : List Trio) (rows : List ResultRow)
      (counters counters_ci : List (String × Nat)),
      compute_mendelian_violations trio_rows = .ok (rows, counters, counters_ci) →
      sumCounters counters = (rows.filter (fun r => r.IsMendelianViolation)).length := by
  intro trios rows cs csci h
  exact cmv_go_inv trios [] [] [] rows cs csci h (by simp [sumCounters])

/-- Witness for `counters_sum_equals_violation_rows` on a concrete
two-trio input with exactly one violating trio. -/
theorem counters_sum_equals_violation_rows_witness :
    ∃ rows counters counters_ci,
      compute_mendelian_violations [trioHetExample, trioLeadingZeroExample] =
        .ok (rows, counters, counters_ci) ∧
      sumCounters counters = (rows.filter (fun r => r.IsMendelianViolation)).length := by
  refine ⟨_, _, _, rfl, ?_⟩
  exact counters_sum_equals_violation_rows [trioHetExample, trioLeadingZeroExample] _ _ _ rfl

/-- Claim C8: parsing the genotype-calls table fails iff it contains a
duplicate (Filename, SampleId, LocusId, VariantId) key, parsing the
pedigree table fails iff duplicate `individual_id` values remain after
deduplicating the selected rows by exact equality, and otherwise each
parse returns its table. -/
theorem parse_duplicate_key_errors :
    (∀ rows : List Row,
      parse_combined_str_calls_tsv_path rows =
        if (rows.map callKey).Nodup then .ok rows else .error .duplicateKeys) ∧
    (∀ rows : List FamRow,
      parse_fam_file rows =
        if ((drop_duplicates (rows.map famProj)).map (fun r => r.1)).Nodup
        then .ok (drop_duplicates (rows.map famProj))
        else .error .duplicateKeys) := by
  constructor
  · intro rows
    unfold parse_combined_str_calls_tsv_path
    rw [check_for_duplicate_keys_eq]
    by_cases h : (rows.map callKey).Nodup <;> simp [h]
  · intro rows
    unfold parse_fam_file
    rw [check_for_duplicate_keys_eq]
    by_cases h : ((drop_duplicates (rows.map famProj)).map (fun r => r.1)).Nodup <;> simp [h]

end CheckTrios
